import Mathlib

/-!
Verification of the call scheduler and execution engine of the
cognite extractor-utils REST framework, as a shallow embedding of
src/cognite/extractorutils/rest/extractor.py and
src/cognite/extractorutils/rest/http.py.

Timestamps (Python floats holding seconds since the epoch) are modelled as
integers: the source applies only subtraction, addition and order comparison
to them. Python dictionaries are modelled as insertion-ordered association
lists together with the assignment operation setKey, and values that may be
either a literal or a zero-argument callable are modelled by the TemplateVal
type. The blocking, concurrent loop of RestExtractor._get_next_call is
modelled one loop iteration at a time: the observations an iteration makes of
the shared state (the cancellation flag, the executing-call counter, the queue
emptiness check, the wall clock, and the outcome of the blocking queue get)
are supplied as inputs, which covers every interleaving with the worker
threads.
-/

abbrev Timestamp := Int

/-- A JSON value, as produced by Response.json() in the source. -/
inductive Json where
  | null
  | bool (b : Bool)
  | num (n : Int)
  | str (s : String)
  | arr (elems : List Json)
  | obj (fields : List (String × Json))

/-- A template value of the source: either a literal (already rendered to the
string Python would use for it) or a zero-argument producer callable
(extractor.py line 134, http.py lines 29-36). reprStr is the text Python
str() renders for the function object itself, unrelated to its return
value. -/
inductive TemplateVal where
  | lit (s : String)
  | producer (f : Unit → String) (reprStr : String)

/-- The helper _get_or_call (extractor.py lines 582-583): invoke the item if
it is callable, otherwise return it unchanged. -/
def getOrCall : TemplateVal → String
  | TemplateVal.lit s => s
  | TemplateVal.producer f _ => f ()

/-- Python str() applied to the raw template value: a literal renders as
itself, while a callable is not invoked — str() yields the repr of the
function object. -/
def pyStr : TemplateVal → String
  | TemplateVal.lit s => s
  | TemplateVal.producer _ r => r

/-- Python dict assignment d[k] = v on an insertion-ordered association list:
replace the value of the first (unique) occurrence of the key, or append a
fresh binding. -/
def setKey : List (String × String) → String → String → List (String × String)
  | [], k, v => [(k, v)]
  | (k0, v0) :: rest, k, v =>
    if k0 = k then (k0, v) :: rest else (k0, v0) :: setKey rest k v

/-- Python dict lookup d.get(k). -/
def getKey : List (String × String) → String → Option String
  | [], _ => none
  | (k0, v0) :: rest, k => if k0 = k then some v0 else getKey rest k

/-- A loop performing the dict assignment d[k] = v for each pair of an
iterated sequence, in order. -/
def setAll (d : List (String × String)) (items : List (String × String)) :
    List (String × String) :=
  items.foldl (fun acc p => setKey acc p.1 p.2) d

/-- The first defined of two optional values; used to state which source a
merged dict takes a key from. -/
def orDefault (o : Option String) (d : Option String) : Option String :=
  match o with
  | some v => some v
  | none => d

/-- The value the last binding of a key in an iteration sequence would leave
in a dict built from that sequence; none when the key never occurs. Used to
state merge results. -/
def lastBound : List (String × String) → String → Option String
  | [], _ => none
  | p :: rest, k =>
    orDefault (lastBound rest k) (if p.1 = k then some p.2 else none)

/-- Python str.split(sep) for a single-character separator, on the character
list of the string; both separators the source splits on inside
HttpUrl.__init__ are single characters. -/
def splitChar (sep : Char) : List Char → List (List Char)
  | [] => [[]]
  | c :: rest =>
    if c = sep then [] :: splitChar sep rest
    else
      match splitChar sep rest with
      | [] => [[c]]
      | r :: rs => (c :: r) :: rs

/-- Python str.split(sep, 1) for a single-character separator: the text
before the first occurrence, and — when the separator occurs — the text after
it. -/
def splitFirst (sep : Char) : List Char → List Char × Option (List Char)
  | [] => ([], none)
  | c :: rest =>
    if c = sep then ([], some rest)
    else
      let p := splitFirst sep rest
      (c :: p.1, p.2)

/-- The query component of a URL string as urllib.parse.urlparse extracts it
(external standard library, modelled from its documented behavior): the
fragment is everything after the first hash character, and the query is
everything after the first question mark of what remains; empty when there is
no question mark. -/
def extractQuery (url : String) : String :=
  let noFrag := (splitFirst ('#') url.data).1
  match (splitFirst ('?') noFrag).2 with
  | none => ("")
  | some q => String.mk q

/-- The query-parameter parse inside HttpUrl.__init__ (http.py line 61):
each parameter of the ampersand-split query is split on the equals sign and
unpacked into exactly a key and a value; Python raises ValueError — modelled
as none — when a parameter does not split into exactly two pieces. -/
def parseParams : List String → Option (List (String × String))
  | [] => some []
  | p :: rest =>
    match splitChar ('=') p.data with
    | [kcs, vcs] =>
      (parseParams rest).map (fun t => (String.mk kcs, String.mk vcs) :: t)
    | _ => none

/-- The query dict built by HttpUrl.__init__ (http.py lines 60-63) from the
parsed query component: an empty component yields an empty dict, otherwise
the component is split and parsed, and the resulting pairs build the dict;
none models the ValueError escaping the constructor. -/
def initQuery (queryComponent : String) : Option (List (String × String)) :=
  if queryComponent = ("") then some []
  else
    (parseParams ((splitChar ('&') queryComponent.data).map
      (fun cs => String.mk cs))).map (setAll [])

/-- The query field of the HttpUrl constructed by HttpUrl.__init__ from a URL
string, none when construction raises. The scheme, netloc, path and fragment
fields are copied verbatim from urlparse and cannot fail. -/
def HttpUrl_init_query (url : String) : Option (List (String × String)) :=
  initQuery (extractQuery url)

/-- An already-constructed HTTP URL value (class HttpUrl of http.py), with
the query held as a dict. -/
structure HttpUrlM where
  scheme : String
  netloc : String
  path : String
  query : List (String × String)
  fragment : String

/-- HttpUrl.add_to_query (http.py lines 66-69): every value of the supplied
mapping is rendered with Python str() — which does not invoke a callable
value — and assigned into the query dict. -/
def add_to_query (u : HttpUrlM) (query : List (String × TemplateVal)) :
    HttpUrlM :=
  { u with query := query.foldl (fun acc p => setKey acc p.1 (pyStr p.2)) u.query }

inductive HttpMethod where
  | GET
  | POST

/-- HttpCallResult (http.py lines 86-96): the URL called and the decoded
response, as handed to a pagination function. The response value is opaque to
the engine and modelled as a JSON tree; the uuid field carries no engine
significance and is omitted. -/
structure HttpCallResultM where
  url : HttpUrlM
  response : Json
  time : Timestamp

/-- The Endpoint descriptor (http.py lines 99-110). The implementation and
response_type fields are opaque to the scheduling engine (they are consumed
inside RestExtractor._call, whose decode stage is modelled separately) and
are omitted; the body template only matters to the claims through its
presence and is modelled as its JSON tree. -/
structure EndpointM where
  name : Option String
  method : HttpMethod
  path : TemplateVal
  query : List (String × TemplateVal)
  headers : List (String × TemplateVal)
  body : Option Json
  next_page : Option (HttpCallResultM → Option HttpUrlM)
  interval : Option Int

/-- HttpCall (extractor.py lines 78-93): a single pending call to an
endpoint, due at call_when (0 meaning as soon as possible). -/
structure HttpCallM where
  endpoint : EndpointM
  url : HttpUrlM
  call_when : Timestamp

/-- PrioritizedHttpCall (extractor.py lines 96-99): the queue entry, ordered
by priority. -/
structure PrioritizedHttpCallM where
  priority : Timestamp
  call : HttpCallM

/-- The not-before timestamp of the follow-up call constructed in
RestExtractor._handle_call_response (extractor.py line 574): 0 when the
endpoint has no interval, now + interval otherwise. -/
def followUpWhen (e : EndpointM) (now : Timestamp) : Timestamp :=
  match e.interval with
  | none => 0
  | some i => now + i

/-- RestExtractor._handle_call_response (extractor.py lines 566-576), returning
the prioritized call pushed onto the call queue, if any: nothing is enqueued
when the endpoint has no pagination function or the pagination function
returns no URL. -/
def handleCallResponse (e : EndpointM) (call : HttpCallResultM)
    (now : Timestamp) : Option PrioritizedHttpCallM :=
  match e.next_page with
  | none => none
  | some np =>
    match np call with
    | none => none
    | some nextUrl =>
      some { priority := followUpWhen e now,
             call := { endpoint := e, url := nextUrl,
                       call_when := followUpWhen e now } }

/-- The three ways one iteration of the loop of RestExtractor._get_next_call
can end: return None (the producer terminates the run), return a call (it is
handed to a worker), or continue looping with a possibly changed waiting slot
after putting pushedBack (if any) back onto the queue. -/
inductive FetchOutcome where
  | terminated
  | dispatched (c : HttpCallM)
  | looping (waiting : Option PrioritizedHttpCallM)
      (pushedBack : Option PrioritizedHttpCallM)

/-- One iteration of the loop body of RestExtractor._get_next_call
(extractor.py lines 446-472). The observations the iteration makes of the
shared, concurrently mutated state are inputs: cancel is
cancelation_token.is_set() at the loop condition, nExecuting and queueEmpty
are self.n_executing and self._call_queue.empty() as read at line 454, now is
time.time(), and getResult is the outcome of the blocking
self._call_queue.get at line 460 — some dequeued item, or none when the
timeout elapsed and Empty was raised. The default _min_check_interval of 1
second is positive, so when the waiting slot is empty the early-return test
of line 457 cannot fire and the iteration proceeds to the get. -/
def getNextCallStep (cancel : Bool) (nExecuting : Nat) (queueEmpty : Bool)
    (waiting : Option PrioritizedHttpCallM) (now : Timestamp)
    (getResult : Option PrioritizedHttpCallM) : FetchOutcome :=
  if cancel then FetchOutcome.terminated
  else if nExecuting = 0 ∧ queueEmpty = true then
    match waiting with
    | some w => FetchOutcome.dispatched w.call
    | none => FetchOutcome.terminated
  else
    match waiting with
    | some w =>
      if w.call.call_when - now ≤ 0 then FetchOutcome.dispatched w.call
      else
        match getResult with
        | none => FetchOutcome.looping (some w) none
        | some nxt =>
          if nxt.call.call_when < w.call.call_when then
            FetchOutcome.looping (some nxt) (some w)
          else
            FetchOutcome.looping (some w) none
    | none =>
      match getResult with
      | none => FetchOutcome.looping none none
      | some nxt => FetchOutcome.looping (some nxt) none

def optCallList : Option PrioritizedHttpCallM → List HttpCallM
  | none => []
  | some p => [p.call]

/-- The pending calls still accounted for after a loop iteration: the
dispatched call, or the calls held in the waiting slot and pushed back onto
the queue. -/
def heldCalls : FetchOutcome → List HttpCallM
  | FetchOutcome.terminated => []
  | FetchOutcome.dispatched c => [c]
  | FetchOutcome.looping w p => optCallList w ++ optCallList p

/-- RestExtractor.prepare_headers (extractor.py lines 413-444): the header
dict is built from the global constructor headers, then overwritten by the
endpoint headers, the config headers, the Authorization header when auth is
configured, and Content-Type when the endpoint has a body. Global and
endpoint header values go through _get_or_call; config header values are
plain strings. -/
def prepare_headers (selfHeaders : List (String × TemplateVal))
    (configHeaders : Option (List (String × String)))
    (authIsConfigured : Bool) (authHeader : String) (e : EndpointM) :
    List (String × String) :=
  let h1 := setAll [] (selfHeaders.map (fun p => (p.1, getOrCall p.2)))
  let h2 := setAll h1 (e.headers.map (fun p => (p.1, getOrCall p.2)))
  let h3 :=
    match configHeaders with
    | some cfg => setAll h2 cfg
    | none => h2
  let h4 := if authIsConfigured then setKey h3 ("Authorization") authHeader else h3
  match e.body with
  | some _ => setKey h4 ("Content-Type") ("application/json")
  | none => h4

/-- The header-resolution rule as the specification words it: a
last-applied-wins merge, in order of increasing priority, of global extractor
headers, endpoint headers, config headers, the Authorization header when auth
is configured, and the automatic Content-Type when the endpoint has a body —
equivalently, for each key the highest-priority source defining it wins. -/
def specHeaderValue (selfHeaders : List (String × TemplateVal))
    (configHeaders : Option (List (String × String)))
    (authIsConfigured : Bool) (authHeader : String) (e : EndpointM)
    (k : String) : Option String :=
  if e.body.isSome ∧ k = ("Content-Type") then some ("application/json")
  else if authIsConfigured = true ∧ k = ("Authorization") then some authHeader
  else
    orDefault (lastBound (configHeaders.getD []) k)
      (orDefault (lastBound (e.headers.map (fun p => (p.1, getOrCall p.2))) k)
        (lastBound (selfHeaders.map (fun p => (p.1, getOrCall p.2))) k))

/-- The response-shape adaptation of RestExtractor._call (extractor.py lines
553-554): a top-level JSON list is wrapped as an object with a single items
field before decoding; any other value is passed to the decoder unchanged. -/
def wrapListResponse : Json → Json
  | Json.arr xs => Json.obj [(("items"), Json.arr xs)]
  | j => j

/-- The outcome of one HTTP attempt inside inner_call (extractor.py lines
536-546): a 2xx response with its raw body, an HTTPError raised by
raise_for_status on a non-2xx status, or any other exception raised during
the attempt. -/
inductive AttemptOutcome where
  | success (body : String)
  | httpError (e : String)
  | failure (e : String)

/-- How a call can fail: a transient HTTP failure that exhausted its retries,
a decode failure (malformed JSON or response-shape mismatch), or any other
exception. -/
inductive CallError where
  | http (e : String)
  | decodeError (e : String)
  | other (e : String)

/-- Modelled from the spec: the retry executor of the base extractor-utils
package (cognite.extractorutils.retry, not part of this repository's sources)
wraps inner_call with up to the configured number of tries, retrying only
when the raised exception is among the configured exception types — here
exactly HTTPError, extractor.py line 529 — re-raising any other exception
immediately, and raising the last error once the tries are exhausted. The
backoff, jitter and cancellation waits between attempts do not affect which
result is returned and are omitted; attempt i is the outcome of the i-th
HTTP attempt. -/
def retryCall (attempt : Nat → AttemptOutcome) (i : Nat) :
    Nat → Except CallError String
  | 0 => Except.error (CallError.http ("out of tries"))
  | 1 =>
    match attempt i with
    | AttemptOutcome.success body => Except.ok body
    | AttemptOutcome.httpError e => Except.error (CallError.http e)
    | AttemptOutcome.failure e => Except.error (CallError.other e)
  | n + 2 =>
    match attempt i with
    | AttemptOutcome.success body => Except.ok body
    | AttemptOutcome.httpError _ => retryCall attempt (i + 1) (n + 1)
    | AttemptOutcome.failure e => Except.error (CallError.other e)

/-- The number of HTTP attempts the retry executor performs. -/
def retryAttempts (attempt : Nat → AttemptOutcome) (i : Nat) : Nat → Nat
  | 0 => 0
  | 1 => 1
  | n + 2 =>
    match attempt i with
    | AttemptOutcome.httpError _ => 1 + retryAttempts attempt (i + 1) (n + 1)
    | _ => 1

/-- RestExtractor._call after header and query resolution (extractor.py lines
527-562): the HTTP attempt is wrapped by the retry executor, and only then is
the raw body JSON-parsed, a top-level list wrapped, and the value decoded
into the endpoint response type; a JSONDecodeError or DaciteError raised
there is re-raised outside the retried function. The JSON parse and the
dacite decoding are the parse and fromDict parameters. -/
def callWithRetry {α : Type} (tries : Nat) (attempt : Nat → AttemptOutcome)
    (parse : String → Except String Json)
    (fromDict : Json → Except String α) : Except CallError α :=
  match retryCall attempt 0 tries with
  | Except.error err => Except.error err
  | Except.ok raw =>
    match parse raw with
    | Except.error e => Except.error (CallError.decodeError e)
    | Except.ok data =>
      match fromDict (wrapListResponse data) with
      | Except.error e => Except.error (CallError.decodeError e)
      | Except.ok v => Except.ok v

def squote : String := (Char.ofNat 39).toString

/-- Python str() of the optional endpoint name interpolated into the f-string
of extractor.py line 519: None renders as the text None. -/
def pyStrOptName : Option String → String
  | some s => s
  | none => ("None")

/-- One entry of the aggregate run-failure message (extractor.py line 519). -/
def errorEntry (name : Option String) (err : String) : String :=
  ("Error in endpoint ") ++ squote ++ pyStrOptName name ++ squote ++ (": ") ++ err

/-- Python str.join with a comma-space separator (extractor.py line 518). -/
def joinComma : List String → String
  | [] => ("")
  | [s] => s
  | s :: rest => s ++ (", ") ++ joinComma rest

/-- The outcome RestExtractor.run delivers to its caller after the producer
thread has been joined — that is, after the dispatch loop has fully drained —
as a function of the error list the workers accumulated (extractor.py lines
515-521): when any call failures were recorded the run raises a single
RuntimeError whose message joins one entry per failure, naming the failing
endpoint; otherwise it returns normally. Each recorded failure is the pair of
the failing endpoint's name and the stringified error. -/
def runOutcome (errors : List (Option String × String)) : Except String Unit :=
  match errors with
  | [] => Except.ok ()
  | _ =>
    Except.error (joinComma (errors.map (fun p => errorEntry p.1 p.2)))

/-- A URL value used by concrete instances below. -/
def urlW : HttpUrlM :=
  { scheme := ("http"), netloc := ("host"), path := ("/p"), query := [],
    fragment := ("") }

def urlW2 : HttpUrlM :=
  { scheme := ("http"), netloc := ("host"), path := ("/p2"),
    query := [(("cursor"), ("abc"))], fragment := ("") }

/-- An endpoint with no pagination and no interval. -/
def endpointStub : EndpointM :=
  { name := none, method := HttpMethod.GET, path := TemplateVal.lit ("/p"),
    query := [], headers := [], body := none, next_page := none,
    interval := none }

/-- An interval endpoint whose pagination function always yields urlW2. -/
def endpointPagW : EndpointM :=
  { name := some ("ep"), method := HttpMethod.GET,
    path := TemplateVal.lit ("/p"), query := [], headers := [], body := none,
    next_page := some (fun _ => some urlW2), interval := some 30 }

/-- A call result handed to a pagination function in the instances below. -/
def resultW : HttpCallResultM :=
  { url := urlW, response := Json.null, time := 0 }

/-- A queue entry due at time 10. -/
def pcallA10 : PrioritizedHttpCallM :=
  { priority := 10,
    call := { endpoint := endpointStub, url := urlW, call_when := 10 } }

/-- A queue entry due at time 20. -/
def pcallB20 : PrioritizedHttpCallM :=
  { priority := 20,
    call := { endpoint := endpointStub, url := urlW, call_when := 20 } }

/-- A query template holding a producer callable: the callable returns 42,
while Python str() of the function object renders its repr. -/
def qProducerW : TemplateVal :=
  TemplateVal.producer (fun _ => ("42")) ("<function q at 0x0>")

/-- C7: a successful response whose top-level JSON value is a list is decoded
as the object wrapping that list under an items field, so a top-level array
response decodes identically to the equivalent items object for any decoder;
a top-level object response is passed to the decoder unchanged. -/
theorem wrap_list_response_decode_spec :
    (∀ (α : Type) (decode : Json → α) (xs : List Json),
      decode (wrapListResponse (Json.arr xs)) =
        decode (Json.obj [(("items"), Json.arr xs)])) ∧
    (∀ fields : List (String × Json),
      wrapListResponse (Json.obj fields) = Json.obj fields) :=
  ⟨fun _ _ _ => rfl, fun _ => rfl⟩

/-- C4: when the endpoint's pagination function exists and returns a URL, the
follow-up pending call pushed by _handle_call_response is due at 0 when the
endpoint has no interval and at now + interval when it has one; when the
pagination function is absent or returns none, nothing is enqueued. -/
theorem handle_call_response_follow_up_spec (e : EndpointM)
    (r : HttpCallResultM) (now : Timestamp) :
    (e.next_page = none → handleCallResponse e r now = none) ∧
    (∀ np, e.next_page = some np → np r = none →
      handleCallResponse e r now = none) ∧
    (∀ np u, e.next_page = some np → np r = some u →
      handleCallResponse e r now =
        some { priority := followUpWhen e now,
               call := { endpoint := e, url := u,
                         call_when := followUpWhen e now } }) ∧
    (e.interval = none → followUpWhen e now = 0) ∧
    (∀ i, e.interval = some i → followUpWhen e now = now + i) := by
  refine ⟨?h1, ?h2, ?h3, ?h4, ?h5⟩
  · intro h
    simp [handleCallResponse, h]
  · intro np h1 h2
    simp [handleCallResponse, h1, h2]
  · intro np u h1 h2
    simp [handleCallResponse, h1, h2]
  · intro h
    simp [followUpWhen, h]
  · intro i h
    simp [followUpWhen, h]

/-- Witness for C4 at a concrete interval endpoint whose pagination function
returns urlW2: the follow-up is enqueued, due at now + interval. -/
theorem handle_call_response_follow_up_spec_witness :
    handleCallResponse endpointPagW resultW 100 =
      some { priority := followUpWhen endpointPagW 100,
             call := { endpoint := endpointPagW, url := urlW2,
                       call_when := followUpWhen endpointPagW 100 } } ∧
    followUpWhen endpointPagW 100 = 100 + 30 := by
  constructor
  · exact (handle_call_response_follow_up_spec endpointPagW resultW 100).2.2.1
      (fun _ => some urlW2) urlW2 rfl rfl
  · exact (handle_call_response_follow_up_spec endpointPagW resultW 100).2.2.2.2
      30 rfl

/-- C2, evaluating the fetch-next-call iteration at a failing input: with no
call executing, a non-empty queue, the waiting slot holding a call due at 10,
and the blocking get returning a call due at 20 at time 0, the iteration
continues holding only the first call — the dequeued call due at 20 is
neither dispatched, nor kept in the waiting slot, nor pushed back onto the
queue: it is discarded (the final else of extractor.py line 470). -/
theorem get_next_call_drops_dequeued_call :
    getNextCallStep false 0 false (some pcallA10) 0 (some pcallB20) =
      FetchOutcome.looping (some pcallA10) none ∧
    heldCalls (FetchOutcome.looping (some pcallA10) none) = [pcallA10.call] ∧
    pcallA10.call.call_when = 10 ∧ pcallB20.call.call_when = 20 :=
  ⟨rfl, rfl, rfl, rfl⟩

/-- C3, evaluating the fetch-next-call iteration at a failing input: at time
0, with the queue empty and no call executing, the waiting slot holding a
call due at time 10 is returned for dispatch (extractor.py lines 454-455)
even though its due time is in the future. -/
theorem get_next_call_dispatches_waiting_call_early :
    getNextCallStep false 0 true (some pcallA10) 0 none =
      FetchOutcome.dispatched pcallA10.call ∧
    (0 : Int) < pcallA10.call.call_when :=
  ⟨rfl, by decide⟩

/-- C6, evaluating add_to_query at a failing input: a zero-argument producer
supplied as a query value is not invoked when the call's query is resolved —
the repr of the function object is stored as the parameter value, not the
producer's return value. -/
theorem add_to_query_renders_producer_unevaluated :
    getKey (add_to_query urlW [(("a"), qProducerW)]).query ("a") =
      some ("<function q at 0x0>") ∧
    getOrCall qProducerW = ("42") :=
  ⟨rfl, rfl⟩

/-- When the cancellation flag is unset and the drained condition of line 454
does not hold, an iteration of the fetch loop never returns None. -/
theorem getNextCallStep_ne_terminated (n : Nat) (qe : Bool)
    (w : Option PrioritizedHttpCallM) (now : Timestamp)
    (g : Option PrioritizedHttpCallM) (h : ¬(n = 0 ∧ qe = true)) :
    getNextCallStep false n qe w now g ≠ FetchOutcome.terminated := by
  unfold getNextCallStep
  rw [if_neg (by simp), if_neg h]
  cases w with
  | none => cases g <;> simp
  | some wv =>
    dsimp only
    by_cases hle : wv.call.call_when - now ≤ 0
    · rw [if_pos hle]
      simp
    · rw [if_neg hle]
      cases g with
      | none => simp
      | some nxt =>
        dsimp only
        by_cases hlt : nxt.call.call_when < wv.call.call_when
        · rw [if_pos hlt]
          simp
        · rw [if_neg hlt]
          simp

/-- C1: an iteration of the fetch loop of _get_next_call returns None — and
so the producer terminates the run — only when the cancellation flag is set,
or the executing-call count read at the check is zero and the queue was
observed empty at the same check; conversely, whenever the flag is unset and
the queue is non-empty or some call is executing, the iteration does not
return None. -/
theorem get_next_call_terminates_only_when_drained :
    (∀ (cancel : Bool) (n : Nat) (qe : Bool)
        (w : Option PrioritizedHttpCallM) (now : Timestamp)
        (g : Option PrioritizedHttpCallM),
      getNextCallStep cancel n qe w now g = FetchOutcome.terminated →
      cancel = true ∨ (n = 0 ∧ qe = true)) ∧
    (∀ (n : Nat) (qe : Bool) (w : Option PrioritizedHttpCallM)
        (now : Timestamp) (g : Option PrioritizedHttpCallM),
      qe = false ∨ 0 < n →
      getNextCallStep false n qe w now g ≠ FetchOutcome.terminated) := by
  constructor
  · intro cancel n qe w now g h
    cases cancel with
    | true => exact Or.inl rfl
    | false =>
      by_cases hd : n = 0 ∧ qe = true
      · exact Or.inr hd
      · exact absurd h (getNextCallStep_ne_terminated n qe w now g hd)
  · intro n qe w now g hor
    apply getNextCallStep_ne_terminated
    rintro ⟨hn, hq⟩
    rcases hor with hqe | hn0
    · rw [hq] at hqe
      cases hqe
    · omega

/-- Witness for C1: with three calls executing and a non-empty queue the
iteration does not return None, while a set cancellation flag satisfies the
terminated disjunction. -/
theorem get_next_call_terminates_only_when_drained_witness :
    getNextCallStep false 3 false none 0 none ≠ FetchOutcome.terminated ∧
    (true = true ∨ ((0 : Nat) = 0 ∧ true = true)) := by
  constructor
  · exact get_next_call_terminates_only_when_drained.2 3 false none 0 none
      (Or.inl rfl)
  · exact get_next_call_terminates_only_when_drained.1 true 0 true none 0 none
      rfl

/-- A parameter list containing an entry that does not split into exactly two
pieces on the equals sign makes the query parse fail. -/
theorem parseParams_eq_none (l : List String) (p : String) (hp : p ∈ l)
    (hlen : (splitChar ('=') p.data).length ≠ 2) : parseParams l = none := by
  induction l with
  | nil => cases hp
  | cons a t ih =>
    rcases List.mem_cons.mp hp with rfl | hmem
    · unfold parseParams
      cases hsp : splitChar ('=') p.data with
      | nil => rfl
      | cons k tl =>
        cases tl with
        | nil => rfl
        | cons v tl2 =>
          cases tl2 with
          | nil =>
            exact absurd (by rw [hsp]; rfl) hlen
          | cons c tl3 => rfl
    · unfold parseParams
      cases hsp : splitChar ('=') a.data with
      | nil => rfl
      | cons k tl =>
        cases tl with
        | nil => rfl
        | cons v tl2 =>
          cases tl2 with
          | nil =>
            rw [ih hmem]
            rfl
          | cons c tl3 => rfl

/-- C10: constructing an HttpUrl from a URL string whose query component
holds a parameter that does not split into exactly one key and one value on
the equals sign raises rather than returning a URL value; for every URL
string with an empty query component, construction succeeds with an empty
query mapping. -/
theorem http_url_init_query_spec :
    (∀ (url p : String),
      p ∈ (splitChar ('&') (extractQuery url).data).map (fun cs => String.mk cs) →
      (splitChar ('=') p.data).length ≠ 2 →
      extractQuery url ≠ ("") →
      HttpUrl_init_query url = none) ∧
    (∀ url : String, extractQuery url = ("") →
      HttpUrl_init_query url = some []) := by
  constructor
  · intro url p hp hlen hq
    unfold HttpUrl_init_query initQuery
    rw [if_neg hq, parseParams_eq_none _ p hp hlen]
    rfl
  · intro url hq
    unfold HttpUrl_init_query initQuery
    rw [if_pos hq]

/-- Witness for C10: a URL whose query component is a bare flag without an
equals sign fails construction, and a URL without a query component succeeds
with an empty query mapping. -/
theorem http_url_init_query_spec_witness :
    HttpUrl_init_query ("http://host/path?flag") = none ∧
    HttpUrl_init_query ("http://host/path") = some [] := by
  constructor
  · exact http_url_init_query_spec.1 ("http://host/path?flag") ("flag")
      (by decide) (by decide) (by decide)
  · exact http_url_init_query_spec.2 ("http://host/path") (by decide)

/-- C8: the retry layer retries only on the transient HTTP failure condition:
an attempt ending in any other exception propagates immediately after a
single attempt; more than one attempt is performed only when the first ended
in an HTTPError; and a JSON parse failure or response-shape mismatch after a
successful retried request is surfaced immediately as that call's decode
failure, outside the retried function. -/
theorem retry_only_on_transient_http_failure :
    (∀ (attempt : Nat → AttemptOutcome) (i n : Nat) (e : String),
      attempt i = AttemptOutcome.failure e →
      retryCall attempt i (n + 1) = Except.error (CallError.other e) ∧
      retryAttempts attempt i (n + 1) = 1) ∧
    (∀ (attempt : Nat → AttemptOutcome) (i tries : Nat),
      1 < retryAttempts attempt i tries →
      ∃ e, attempt i = AttemptOutcome.httpError e) ∧
    (∀ (α : Type) (tries : Nat) (attempt : Nat → AttemptOutcome)
      (parse : String → Except String Json)
      (fromDict : Json → Except String α) (raw : String) (e : String),
      retryCall attempt 0 tries = Except.ok raw →
      parse raw = Except.error e →
      callWithRetry tries attempt parse fromDict =
        Except.error (CallError.decodeError e)) ∧
    (∀ (α : Type) (tries : Nat) (attempt : Nat → AttemptOutcome)
      (parse : String → Except String Json)
      (fromDict : Json → Except String α) (raw : String) (j : Json)
      (e : String),
      retryCall attempt 0 tries = Except.ok raw →
      parse raw = Except.ok j →
      fromDict (wrapListResponse j) = Except.error e →
      callWithRetry tries attempt parse fromDict =
        Except.error (CallError.decodeError e)) := by
  refine ⟨?h1, ?h2, ?h3, ?h4⟩
  · intro attempt i n e h
    cases n with
    | zero =>
      constructor
      · unfold retryCall
        rw [h]
      · rfl
    | succ m =>
      constructor
      · unfold retryCall
        rw [h]
      · unfold retryAttempts
        rw [h]
  · intro attempt i tries h
    match tries with
    | 0 => simp [retryAttempts] at h
    | 1 => simp [retryAttempts] at h
    | m + 2 =>
      cases ho : attempt i with
      | success body =>
        unfold retryAttempts at h
        rw [ho] at h
        simp at h
      | httpError e => exact ⟨e, rfl⟩
      | failure e =>
        unfold retryAttempts at h
        rw [ho] at h
        simp at h
  · intro α tries attempt parse fromDict raw e h1 h2
    unfold callWithRetry
    rw [h1]
    dsimp only
    rw [h2]
  · intro α tries attempt parse fromDict raw j e h1 h2 h3
    unfold callWithRetry
    rw [h1]
    dsimp only
    rw [h2]
    dsimp only
    rw [h3]

/-- Witness for C8: a non-HTTP failure on the first attempt gives up
immediately with that error after one attempt even with five tries
configured, and decode failures after a successful request surface as decode
errors. -/
theorem retry_only_on_transient_http_failure_witness :
    retryCall (fun _ => AttemptOutcome.failure ("boom")) 0 5 =
      Except.error (CallError.other ("boom")) ∧
    retryAttempts (fun _ => AttemptOutcome.failure ("boom")) 0 5 = 1 ∧
    callWithRetry 1 (fun _ => AttemptOutcome.success ("nonsense"))
      (fun _ => Except.error ("bad json")) (fun _ => Except.ok Json.null) =
      Except.error (CallError.decodeError ("bad json")) ∧
    callWithRetry 1 (fun _ => AttemptOutcome.success ("listbody"))
      (fun _ => Except.ok (Json.arr [])) (fun _ => (Except.error ("shape") : Except String Json)) =
      Except.error (CallError.decodeError ("shape")) := by
  refine ⟨?h1, ?h2, ?h3, ?h4⟩
  · exact (retry_only_on_transient_http_failure.1 _ 0 4 ("boom") rfl).1
  · exact (retry_only_on_transient_http_failure.1 _ 0 4 ("boom") rfl).2
  · exact retry_only_on_transient_http_failure.2.2.1 Json 1 _ _ _ ("nonsense")
      ("bad json") rfl rfl
  · exact retry_only_on_transient_http_failure.2.2.2 Json 1 _ _ _ ("listbody")
      (Json.arr []) ("shape") rfl rfl rfl

/-- Every entry of a list is a substring of its comma-space join. -/
theorem mem_data_infix_joinComma (l : List String) (s : String) (h : s ∈ l) :
    s.data <:+: (joinComma l).data := by
  induction l with
  | nil => cases h
  | cons a t ih =>
    cases t with
    | nil =>
      rw [List.mem_singleton.mp h]
      simp [joinComma]
    | cons b ts =>
      have hj : joinComma (a :: b :: ts) = a ++ (", ") ++ joinComma (b :: ts) := by
        simp [joinComma]
      rcases List.mem_cons.mp h with rfl | hmem
      · rw [hj, String.data_append, String.data_append, List.append_assoc]
        exact (List.prefix_append _ _).isInfix
      · have h1 := ih hmem
        rw [hj, String.data_append]
        exact h1.trans (List.suffix_append _ _).isInfix

/-- C9: after the dispatch loop has drained, the run raises exactly one error
precisely when call failures were recorded, and that error's message contains
the entry naming the endpoint for every recorded failure; a run with zero
recorded call failures returns normally. -/
theorem run_outcome_aggregates_failures :
    (∀ errors : List (Option String × String), errors = [] →
      runOutcome errors = Except.ok ()) ∧
    (∀ errors : List (Option String × String), errors ≠ [] →
      ∃ msg, runOutcome errors = Except.error msg ∧
        ∀ p ∈ errors, (errorEntry p.1 p.2).data <:+: msg.data) := by
  constructor
  · intro errors h
    subst h
    rfl
  · intro errors h
    cases errors with
    | nil => exact absurd rfl h
    | cons a t =>
      exact ⟨_, rfl, fun p hp =>
        mem_data_infix_joinComma _ _ (List.mem_map_of_mem _ hp)⟩

/-- Witness for C9: an empty error list returns normally, and with one
recorded failure the aggregate message contains that failure's entry. -/
theorem run_outcome_aggregates_failures_witness :
    runOutcome [] = Except.ok () ∧
    (errorEntry (some ("ep")) ("boom")).data <:+:
      (joinComma ([((some ("ep") : Option String), ("boom"))].map
        (fun p => errorEntry p.1 p.2))).data := by
  constructor
  · exact run_outcome_aggregates_failures.1 [] rfl
  · obtain ⟨msg, hmsg, hall⟩ :=
      run_outcome_aggregates_failures.2 [((some ("ep") : Option String), ("boom"))]
        (by simp)
    have h0 : runOutcome [((some ("ep") : Option String), ("boom"))] =
        Except.error (joinComma ([((some ("ep") : Option String), ("boom"))].map
          (fun p => errorEntry p.1 p.2))) := rfl
    rw [h0] at hmsg
    injection hmsg with hj
    rw [← hj] at hall
    exact hall ((some ("ep"), ("boom"))) (by simp)

theorem getKey_nil (k : String) : getKey [] k = none := rfl

theorem lastBound_nil (k : String) : lastBound [] k = none := rfl

theorem orDefault_none_left (d : Option String) : orDefault none d = d := rfl

theorem orDefault_none_right (o : Option String) : orDefault o none = o := by
  cases o <;> rfl

/-- A dict assignment binds its key and leaves every other key unchanged. -/
theorem getKey_setKey (d : List (String × String)) (k v k2 : String) :
    getKey (setKey d k v) k2 = if k2 = k then some v else getKey d k2 := by
  induction d with
  | nil =>
    by_cases h : k2 = k
    · subst h
      simp [setKey, getKey]
    · simp [setKey, getKey, h, Ne.symm h]
  | cons hd tl ih =>
    obtain ⟨k0, v0⟩ := hd
    by_cases h0 : k0 = k
    · subst h0
      by_cases h2 : k0 = k2
      · subst h2
        simp [setKey, getKey]
      · simp [setKey, getKey, h2, Ne.symm h2]
    · by_cases h2 : k0 = k2
      · subst h2
        simp [setKey, getKey, h0, Ne.symm h0]
      · simp [setKey, getKey, h0, h2, ih]

/-- Folding a sequence of dict assignments over a base dict gives, for each
key, the last binding of the sequence and otherwise the base value. -/
theorem getKey_setAll (items : List (String × String)) :
    ∀ (d : List (String × String)) (k : String),
      getKey (setAll d items) k = orDefault (lastBound items k) (getKey d k) := by
  induction items with
  | nil =>
    intro d k
    rfl
  | cons p rest ih =>
    intro d k
    have hstep : setAll d (p :: rest) = setAll (setKey d p.1 p.2) rest := rfl
    rw [hstep, ih]
    show orDefault (lastBound rest k) (getKey (setKey d p.1 p.2) k) =
      orDefault (orDefault (lastBound rest k) (if p.1 = k then some p.2 else none))
        (getKey d k)
    cases lastBound rest k with
    | some v => rfl
    | none =>
      rw [orDefault_none_left, orDefault_none_left, getKey_setKey]
      by_cases h : k = p.1
      · subst h
        simp [orDefault]
      · simp [orDefault, h, Ne.symm h]

/-- The auth stage of prepare_headers: when auth is configured the
Authorization key is overwritten with the auth header and nothing else
changes. -/
theorem getKey_auth_stage (d : List (String × String)) (auth : Bool)
    (ah k : String) :
    getKey (if auth then setKey d ("Authorization") ah else d) k =
      if auth = true ∧ k = ("Authorization") then some ah else getKey d k := by
  cases auth with
  | true =>
    rw [if_pos rfl, getKey_setKey]
    by_cases hk : k = ("Authorization")
    · rw [if_pos hk, if_pos ⟨rfl, hk⟩]
    · rw [if_neg hk, if_neg (fun hc => hk hc.2)]
  | false =>
    rw [if_neg (by simp : ¬(false = true)),
      if_neg (fun hc : false = true ∧ k = ("Authorization") => by simp at hc)]

/-- C5: for every key, the header dict built by prepare_headers holds exactly
the value the spec's last-applied-wins merge assigns: the automatic
Content-Type when the endpoint has a body, else the Authorization header when
auth is configured, else the config-supplied value, else the endpoint-level
value, else the global extractor value. -/
theorem prepare_headers_merge_spec (selfHeaders : List (String × TemplateVal))
    (configHeaders : Option (List (String × String)))
    (authIsConfigured : Bool) (authHeader : String) (e : EndpointM)
    (k : String) :
    getKey (prepare_headers selfHeaders configHeaders authIsConfigured authHeader e) k =
      specHeaderValue selfHeaders configHeaders authIsConfigured authHeader e k := by
  simp only [prepare_headers, specHeaderValue]
  cases hb : e.body with
  | some b =>
    rw [getKey_setKey]
    by_cases hk : k = ("Content-Type")
    · rw [if_pos hk, if_pos ⟨rfl, hk⟩]
    · rw [if_neg hk,
        if_neg (fun hc : (some b).isSome = true ∧ k = ("Content-Type") => hk hc.2),
        getKey_auth_stage]
      by_cases hc : authIsConfigured = true ∧ k = ("Authorization")
      · rw [if_pos hc, if_pos hc]
      · rw [if_neg hc, if_neg hc]
        cases configHeaders with
        | none =>
          dsimp only
          rw [getKey_setAll, getKey_setAll]
          simp only [Option.getD_none, lastBound_nil, orDefault_none_left,
            getKey_nil, orDefault_none_right]
        | some cfg =>
          dsimp only
          rw [getKey_setAll, getKey_setAll, getKey_setAll]
          simp only [Option.getD_some, getKey_nil, orDefault_none_right]
  | none =>
    rw [if_neg (fun hc : (none : Option Json).isSome = true ∧ k = ("Content-Type") =>
        by simp at hc),
      getKey_auth_stage]
    by_cases hc : authIsConfigured = true ∧ k = ("Authorization")
    · rw [if_pos hc, if_pos hc]
    · rw [if_neg hc, if_neg hc]
      cases configHeaders with
      | none =>
        dsimp only
        rw [getKey_setAll, getKey_setAll]
        simp only [Option.getD_none, lastBound_nil, orDefault_none_left,
          getKey_nil, orDefault_none_right]
      | some cfg =>
        dsimp only
        rw [getKey_setAll, getKey_setAll, getKey_setAll]
        simp only [Option.getD_some, getKey_nil, orDefault_none_right]
